import Mathlib

/-!
Verification development for the in-memory engine of the security-dashboard repository: the
vulnerability data-processing code.

Embedded source functions:
* metrics aggregation and filtering/sorting from src/utils/dataUtils.ts
  (groupBySeverity, calculateRiskFrequency, processVulnerabilityData,
  searchVulnerabilities, filterVulnerabilities, sortVulnerabilities);
* the duplicated sorter from src/workers/sortWorker.ts;
* the per-record normalization pass of loadVulnerabilityData from
  src/utils/dataLoader.ts;
* the comparison-list handlers from
  src/components/Dashboard/MainDashboard.tsx.

JavaScript strings are modelled as Lean strings with code-unit-wise
case mapping and ordinal comparison (matching the ASCII behaviour of
toLowerCase / < used by the code); JavaScript numbers are modelled as
rationals.  Array.prototype.sort is modelled as a stable merge sort
driven by the comparator, keeping an element before another exactly when
the comparator returns a value less than or equal to zero.
-/

/-- Model of the JavaScript String.prototype.toLowerCase (character-wise
ASCII lowering, matching its behaviour on ASCII data). -/
def jsToLower (s : String) : String :=
  String.mk (s.data.map Char.toLower)

/-- Model of the JavaScript ordinal string comparison a < b (lexicographic
on code units). -/
def charListLt : List Char → List Char → Bool
  | _, [] => false
  | [], _ :: _ => true
  | c :: cs, d :: ds => c.val < d.val || (c.val == d.val && charListLt cs ds)

/-- JavaScript string comparison s < t. -/
def jsStrLt (s t : String) : Bool :=
  charListLt s.data t.data

/-- Model of the JavaScript String.prototype.includes (substring test). -/
def jsIncludes (s t : String) : Bool :=
  s.data.tails.any (fun suffix => t.data.isPrefixOf suffix)

/-- The VulnerabilityData record type (src/types/vulnerability.types.ts,
as declared inline in src/workers/sortWorker.ts): id, package, severity
and kaiStatus are required strings, the remaining fields are optional. -/
structure VulnerabilityData where
  id : String
  package : String := ""
  severity : String := ""
  kaiStatus : String := ""
  cvss : Option ℚ := none
  cve : Option String := none
  description : Option String := none
  version : Option String := none
  riskFactors : Option (List String) := none
  timestamp : Option String := none
  groupName : Option String := none
  imageName : Option String := none
deriving DecidableEq

/-- Severity counts accumulator of groupBySeverity: the object literal
with keys critical, high, medium, low. -/
structure SeverityDistribution where
  critical : Nat
  high : Nat
  medium : Nat
  low : Nat
deriving DecidableEq

/-- The kaiStatusBreakdown object of processVulnerabilityData.  The Lean
field invalidNorisk is the bucket keyed invalid-norisk and
aiInvalidNorisk the bucket keyed ai-invalid-norisk. -/
structure KaiStatusBreakdown where
  invalidNorisk : Nat
  aiInvalidNorisk : Nat
  other : Nat
deriving DecidableEq

/-- The VulnerabilityMetrics value produced by processVulnerabilityData.
riskFactorsFrequency models the frequency map as a total function with
default 0 (JavaScript reads absent keys as undefined and coalesces to 0). -/
structure VulnerabilityMetrics where
  total : Nat
  severityDistribution : SeverityDistribution
  riskFactorsFrequency : String → Nat
  kaiStatusBreakdown : KaiStatusBreakdown

/-- One reduce step of groupBySeverity (src/utils/dataUtils.ts):
lower-case the severity and, when it is one of the four accumulator
keys, increment that bucket; otherwise leave the accumulator unchanged. -/
def severityStep (acc : SeverityDistribution) (item : VulnerabilityData) : SeverityDistribution :=
  let severity := jsToLower item.severity
  if severity = "critical" then { acc with critical := acc.critical + 1 }
  else if severity = "high" then { acc with high := acc.high + 1 }
  else if severity = "medium" then { acc with medium := acc.medium + 1 }
  else if severity = "low" then { acc with low := acc.low + 1 }
  else acc

/-- groupBySeverity (src/utils/dataUtils.ts): single-pass reduce starting
from all-zero counts. -/
def groupBySeverity (data : List VulnerabilityData) : SeverityDistribution :=
  data.foldl severityStep ⟨0, 0, 0, 0⟩

/-- calculateRiskFrequency (src/utils/dataUtils.ts), restricted to the
typed array form of riskFactors: for each record, each risk-factor label
increments its count (exact string key, no case normalization). -/
def calculateRiskFrequency (data : List VulnerabilityData) : String → Nat :=
  data.foldl
    (fun freq item =>
      match item.riskFactors with
      | some factors =>
          factors.foldl (fun m factor => fun s => if s = factor then m factor + 1 else m s) freq
      | none => freq)
    (fun _ => 0)

/-- processVulnerabilityData (src/utils/dataUtils.ts): total count,
severity distribution, risk-factor frequency, and the KAI status
breakdown computed by three filters over the data. -/
def processVulnerabilityData (data : List VulnerabilityData) : VulnerabilityMetrics :=
  { total := data.length
    severityDistribution := groupBySeverity data
    riskFactorsFrequency := calculateRiskFrequency data
    kaiStatusBreakdown :=
      { invalidNorisk := (data.filter (fun d => d.kaiStatus == "invalid - norisk")).length
        aiInvalidNorisk := (data.filter (fun d => d.kaiStatus == "ai-invalid-norisk")).length
        other :=
          (data.filter
            (fun d => !(["invalid - norisk", "ai-invalid-norisk"].contains d.kaiStatus))).length } }

/-- A severity string matching one of the four canonical buckets
case-insensitively (the condition under which groupBySeverity counts a
record). -/
def recognizedSeverity (s : String) : Bool :=
  jsToLower s == "critical" || jsToLower s == "high" ||
    jsToLower s == "medium" || jsToLower s == "low"

theorem severityStep_sum (acc : SeverityDistribution) (item : VulnerabilityData) :
    (severityStep acc item).critical + (severityStep acc item).high +
        (severityStep acc item).medium + (severityStep acc item).low =
      acc.critical + acc.high + acc.medium + acc.low +
        (if recognizedSeverity item.severity then 1 else 0) := by
  simp only [severityStep, recognizedSeverity]
  split_ifs <;> simp_all <;> omega

theorem groupBySeverity_foldl_sum (data : List VulnerabilityData) (acc : SeverityDistribution) :
    (data.foldl severityStep acc).critical + (data.foldl severityStep acc).high +
        (data.foldl severityStep acc).medium + (data.foldl severityStep acc).low =
      acc.critical + acc.high + acc.medium + acc.low +
        data.countP (fun r => recognizedSeverity r.severity) := by
  induction data generalizing acc with
  | nil => simp
  | cons d rest ih =>
    simp only [List.foldl_cons, List.countP_cons, ih (severityStep acc d)]
    have h := severityStep_sum acc d
    by_cases hr : recognizedSeverity d.severity <;> simp [hr] at h ⊢ <;> omega

theorem filter_three_partition {α : Type} (p q r : α → Bool) (l : List α)
    (h : ∀ a, (p a = true ∧ q a = false ∧ r a = false) ∨
      (p a = false ∧ q a = true ∧ r a = false) ∨
      (p a = false ∧ q a = false ∧ r a = true)) :
    (l.filter p).length + (l.filter q).length + (l.filter r).length = l.length := by
  induction l with
  | nil => rfl
  | cons a rest ih =>
    rcases h a with ⟨hp, hq, hr⟩ | ⟨hp, hq, hr⟩ | ⟨hp, hq, hr⟩ <;>
      simp [List.filter_cons, hp, hq, hr] <;> omega

/-- Claim C1: the KAI status breakdown of processVulnerabilityData
partitions the dataset: the invalid-norisk bucket plus the
ai-invalid-norisk bucket plus the other bucket equals total. -/
theorem kaiStatusBreakdown_partitions (data : List VulnerabilityData) :
    (processVulnerabilityData data).kaiStatusBreakdown.invalidNorisk +
        (processVulnerabilityData data).kaiStatusBreakdown.aiInvalidNorisk +
        (processVulnerabilityData data).kaiStatusBreakdown.other =
      (processVulnerabilityData data).total := by
  simp only [processVulnerabilityData]
  apply filter_three_partition
  intro d
  by_cases h1 : d.kaiStatus = "invalid - norisk"
  · have h2 : ¬d.kaiStatus = "ai-invalid-norisk" := by rw [h1]; decide
    exact Or.inl ⟨by simp [h1], by simp [h2], by simp [h1, List.contains_eq_any_beq]⟩
  · by_cases h2 : d.kaiStatus = "ai-invalid-norisk"
    · exact Or.inr (Or.inl ⟨by simp [h1], by simp [h2],
        by simp [h2, List.contains_eq_any_beq]⟩)
    · exact Or.inr (Or.inr ⟨by simp [h1], by simp [h2],
        by simp [h1, h2, List.contains_eq_any_beq]⟩)

/-- Claim C2: the four severity buckets sum to at most total, with
equality exactly when the severity of every record is recognized
case-insensitively; unrecognized severities are counted in no bucket
(the sum equals the count of recognized records), and the aggregation is
a total function raising no error. -/
theorem severityDistribution_bound (data : List VulnerabilityData) :
    (processVulnerabilityData data).severityDistribution.critical +
          (processVulnerabilityData data).severityDistribution.high +
          (processVulnerabilityData data).severityDistribution.medium +
          (processVulnerabilityData data).severityDistribution.low =
        data.countP (fun r => recognizedSeverity r.severity) ∧
      (processVulnerabilityData data).severityDistribution.critical +
          (processVulnerabilityData data).severityDistribution.high +
          (processVulnerabilityData data).severityDistribution.medium +
          (processVulnerabilityData data).severityDistribution.low ≤
        (processVulnerabilityData data).total ∧
      ((processVulnerabilityData data).severityDistribution.critical +
            (processVulnerabilityData data).severityDistribution.high +
            (processVulnerabilityData data).severityDistribution.medium +
            (processVulnerabilityData data).severityDistribution.low =
          (processVulnerabilityData data).total ↔
        ∀ r ∈ data, recognizedSeverity r.severity = true) := by
  have hsum := groupBySeverity_foldl_sum data ⟨0, 0, 0, 0⟩
  simp only [processVulnerabilityData, groupBySeverity] at hsum ⊢
  refine ⟨by omega, ?_, ?_⟩
  · have := List.countP_le_length (fun r => recognizedSeverity r.severity) (l := data)
    omega
  · rw [show (data.foldl severityStep ⟨0, 0, 0, 0⟩).critical +
          (data.foldl severityStep ⟨0, 0, 0, 0⟩).high +
          (data.foldl severityStep ⟨0, 0, 0, 0⟩).medium +
          (data.foldl severityStep ⟨0, 0, 0, 0⟩).low =
        data.countP (fun r => recognizedSeverity r.severity) from by omega]
    exact List.countP_eq_length

/-- Sort direction parameter: asc or desc. -/
inductive SortDir where
  | asc
  | desc
deriving DecidableEq

/-- The sortable fields accepted by sortVulnerabilities: the keys of
VulnerabilityData plus the synthetic riskFactorsCount. -/
inductive SortField where
  | id
  | package
  | severity
  | kaiStatus
  | cvss
  | cve
  | description
  | version
  | riskFactors
  | timestamp
  | groupName
  | imageName
  | riskFactorsCount
deriving DecidableEq

/-- A JavaScript field value as the generic comparator sees it: a string,
a number, or an array of strings (the riskFactors field); absent or null
values are represented by Option.none at the access site. -/
inductive JsValue where
  | str (s : String)
  | num (q : ℚ)
  | arr (labels : List String)
deriving DecidableEq

/-- Property access a[field] used by the generic comparison path of
sortVulnerabilities.  riskFactorsCount is not a record property (the
comparator intercepts it before this access), so it reads as none. -/
def getField (r : VulnerabilityData) : SortField → Option JsValue
  | .id => some (.str r.id)
  | .package => some (.str r.package)
  | .severity => some (.str r.severity)
  | .kaiStatus => some (.str r.kaiStatus)
  | .cvss => r.cvss.map .num
  | .cve => r.cve.map .str
  | .description => r.description.map .str
  | .version => r.version.map .str
  | .riskFactors => r.riskFactors.map .arr
  | .timestamp => r.timestamp.map .str
  | .groupName => r.groupName.map .str
  | .imageName => r.imageName.map .str
  | .riskFactorsCount => none

/-- The SEVERITY_ORDER lookup table of src/constants/severity.ts (its
content is embedded in src/src/context/DashboardSettingsContext.tsx
lines 186-222), imported by dataUtils.ts for the severity sort branch:
the Record with critical 4, high 3, medium 2, low 1; any other key reads
as undefined, modelled as none and defaulted to 0 at the use site. -/
def SEVERITY_ORDER (s : String) : Option Int :=
  if s = "critical" then some 4
  else if s = "high" then some 3
  else if s = "medium" then some 2
  else if s = "low" then some 1
  else none

/-- The rank looked up under the lower-cased severity, defaulting to 0 for
an unknown key or the empty string (the severity branch of the comparator). -/
def severityRank (r : VulnerabilityData) : Int :=
  (SEVERITY_ORDER (jsToLower r.severity)).getD 0

/-- The count a.riskFactors?.length || 0 used by the riskFactorsCount
branch of the comparator. -/
def riskFactorsCount (r : VulnerabilityData) : Int :=
  match r.riskFactors with
  | some factors => factors.length
  | none => 0

/-- The generic branch of the sortVulnerabilities comparator: a null or
undefined left value compares as 1, then a null right value as -1;
two strings compare ordinally on their lower-cased forms with the
direction applied; two numbers compare by difference with the direction
applied; any other combination compares as 0. -/
def cmpGeneric (dir : SortDir) : Option JsValue → Option JsValue → ℚ
  | none, _ => 1
  | some _, none => -1
  | some (.str s), some (.str t) =>
      if jsStrLt (jsToLower s) (jsToLower t) then (if dir = .asc then -1 else 1)
      else if jsStrLt (jsToLower t) (jsToLower s) then (if dir = .asc then 1 else -1)
      else 0
  | some (.num x), some (.num y) => if dir = .asc then x - y else y - x
  | some _, some _ => 0

/-- The comparator of sortVulnerabilities (src/utils/dataUtils.ts): the
riskFactorsCount and severity branches return differences of integer
counts respectively ranks; every other field uses the generic branch. -/
def cmpVuln (field : SortField) (dir : SortDir) (a b : VulnerabilityData) : ℚ :=
  if field = .riskFactorsCount then
    ((if dir = .asc then riskFactorsCount a - riskFactorsCount b
      else riskFactorsCount b - riskFactorsCount a : Int) : ℚ)
  else if field = .severity then
    ((if dir = .asc then severityRank a - severityRank b
      else severityRank b - severityRank a : Int) : ℚ)
  else cmpGeneric dir (getField a field) (getField b field)

/-- Fuelled merge of two runs, keeping the left element exactly when the
boolean test accepts the pair (for a JavaScript comparator: comparator
value at most zero), which is the stable merge behaviour. -/
def jsMerge {α : Type} (le : α → α → Bool) : Nat → List α → List α → List α
  | 0, xs, ys => xs ++ ys
  | _ + 1, [], ys => ys
  | _ + 1, x :: xs, [] => x :: xs
  | n + 1, x :: xs, y :: ys =>
      if le x y then x :: jsMerge le n xs (y :: ys) else y :: jsMerge le n (x :: xs) ys

/-- Fuelled top-down stable merge sort. -/
def jsSortFuel {α : Type} (le : α → α → Bool) : Nat → List α → List α
  | 0, l => l
  | n + 1, l =>
      if l.length ≤ 1 then l
      else
        jsMerge le l.length (jsSortFuel le n (l.take (l.length / 2)))
          (jsSortFuel le n (l.drop (l.length / 2)))

/-- Model of [...data].sort(cmp): a stable merge sort that keeps a before
b exactly when cmp a b ≤ 0. -/
def jsSort {α : Type} (le : α → α → Bool) (l : List α) : List α :=
  jsSortFuel le l.length l

/-- sortVulnerabilities (src/utils/dataUtils.ts). -/
def sortVulnerabilities (data : List VulnerabilityData) (field : SortField)
    (dir : SortDir) : List VulnerabilityData :=
  jsSort (fun a b => decide (cmpVuln field dir a b ≤ 0)) data

namespace SortWorker

/-- The inline severity ordering of src/workers/sortWorker.ts:
critical 4, high 3, medium 2, low 1. -/
def SEVERITY_ORDER (s : String) : Option Int :=
  if s = "critical" then some 4
  else if s = "high" then some 3
  else if s = "medium" then some 2
  else if s = "low" then some 1
  else none

/-- The worker rank lookup under the lower-cased severity, default 0. -/
def severityRank (r : VulnerabilityData) : Int :=
  (SortWorker.SEVERITY_ORDER (jsToLower r.severity)).getD 0

/-- The worker count of risk factors, 0 when the field is absent. -/
def riskFactorsCount (r : VulnerabilityData) : Int :=
  match r.riskFactors with
  | some factors => factors.length
  | none => 0

/-- The generic branch of the worker comparator (textually duplicated
from dataUtils.ts in src/workers/sortWorker.ts). -/
def cmpGeneric (dir : SortDir) : Option JsValue → Option JsValue → ℚ
  | none, _ => 1
  | some _, none => -1
  | some (.str s), some (.str t) =>
      if jsStrLt (jsToLower s) (jsToLower t) then (if dir = .asc then -1 else 1)
      else if jsStrLt (jsToLower t) (jsToLower s) then (if dir = .asc then 1 else -1)
      else 0
  | some (.num x), some (.num y) => if dir = .asc then x - y else y - x
  | some _, some _ => 0

/-- The worker comparator (src/workers/sortWorker.ts). -/
def cmpVuln (field : SortField) (dir : SortDir) (a b : VulnerabilityData) : ℚ :=
  if field = .riskFactorsCount then
    ((if dir = .asc then SortWorker.riskFactorsCount a - SortWorker.riskFactorsCount b
      else SortWorker.riskFactorsCount b - SortWorker.riskFactorsCount a : Int) : ℚ)
  else if field = .severity then
    ((if dir = .asc then SortWorker.severityRank a - SortWorker.severityRank b
      else SortWorker.severityRank b - SortWorker.severityRank a : Int) : ℚ)
  else SortWorker.cmpGeneric dir (getField a field) (getField b field)

/-- The sortVulnerabilities duplicate of src/workers/sortWorker.ts. -/
def sortVulnerabilities (data : List VulnerabilityData) (field : SortField)
    (dir : SortDir) : List VulnerabilityData :=
  jsSort (fun a b => decide (SortWorker.cmpVuln field dir a b ≤ 0)) data

end SortWorker

theorem mem_jsMerge {α : Type} (le : α → α → Bool) :
    ∀ (n : Nat) (xs ys : List α) (a : α), a ∈ jsMerge le n xs ys ↔ a ∈ xs ∨ a ∈ ys := by
  intro n
  induction n with
  | zero => intro xs ys a; simp [jsMerge]
  | succ n ih =>
    intro xs ys a
    match xs, ys with
    | [], ys => simp [jsMerge]
    | x :: xs, [] => simp [jsMerge]
    | x :: xs, y :: ys =>
      rw [jsMerge]
      split
      · simp only [List.mem_cons, ih]
        tauto
      · simp only [List.mem_cons, ih]
        tauto

theorem pairwise_jsMerge {α : Type} {R : α → α → Prop} {le : α → α → Bool}
    (htrans : ∀ a b c, R a b → R b c → R a c)
    (hA : ∀ a b, le a b = true → R a b)
    (hB : ∀ a b, le a b = false → R b a) :
    ∀ (n : Nat) (xs ys : List α), xs.Pairwise R → ys.Pairwise R →
      xs.length + ys.length ≤ n → (jsMerge le n xs ys).Pairwise R := by
  intro n
  induction n with
  | zero =>
    intro xs ys hxs hys hlen
    have hx : xs = [] := List.eq_nil_of_length_eq_zero (by omega)
    have hy : ys = [] := List.eq_nil_of_length_eq_zero (by omega)
    subst hx hy
    simp [jsMerge]
  | succ n ih =>
    intro xs ys hxs hys hlen
    rcases xs with _ | ⟨x, xs⟩
    · rw [jsMerge]; exact hys
    · rcases ys with _ | ⟨y, ys⟩
      · rw [jsMerge]; exact hxs
      rw [jsMerge]
      obtain ⟨hxhead, hxs'⟩ := List.pairwise_cons.mp hxs
      obtain ⟨hyhead, hys'⟩ := List.pairwise_cons.mp hys
      split
      case isTrue hle =>
        refine List.pairwise_cons.mpr ⟨?_, ?_⟩
        · intro z hz
          rcases (mem_jsMerge le n xs (y :: ys) z).mp hz with hz | hz
          · exact hxhead z hz
          · rcases List.mem_cons.mp hz with hzy | hz
            · rw [hzy]
              exact hA x y hle
            · exact htrans x y z (hA x y hle) (hyhead z hz)
        · refine ih xs (y :: ys) hxs' hys ?_
          simp at hlen ⊢
          omega
      case isFalse hle =>
        refine List.pairwise_cons.mpr ⟨?_, ?_⟩
        · intro z hz
          rcases (mem_jsMerge le n (x :: xs) ys z).mp hz with hz | hz
          · rcases List.mem_cons.mp hz with hzx | hz
            · rw [hzx]
              exact hB x y (Bool.eq_false_iff.mpr hle)
            · exact htrans y x z (hB x y (Bool.eq_false_iff.mpr hle)) (hxhead z hz)
          · exact hyhead z hz
        · refine ih (x :: xs) ys hxs hys' ?_
          simp at hlen ⊢
          omega

theorem length_jsMerge {α : Type} (le : α → α → Bool) :
    ∀ (n : Nat) (xs ys : List α), (jsMerge le n xs ys).length = xs.length + ys.length := by
  intro n
  induction n with
  | zero => intro xs ys; simp [jsMerge]
  | succ n ih =>
    intro xs ys
    rcases xs with _ | ⟨x, xs⟩
    · rw [jsMerge]; simp
    · rcases ys with _ | ⟨y, ys⟩
      · rw [jsMerge]; simp
      rw [jsMerge]
      split <;> simp [ih] <;> omega

theorem length_jsSortFuel {α : Type} (le : α → α → Bool) :
    ∀ (n : Nat) (l : List α), (jsSortFuel le n l).length = l.length := by
  intro n
  induction n with
  | zero => intro l; rfl
  | succ n ih =>
    intro l
    rw [jsSortFuel]
    split
    · rfl
    · rw [length_jsMerge, ih, ih, List.length_take, List.length_drop]
      omega

theorem pairwise_jsSortFuel {α : Type} {R : α → α → Prop} {le : α → α → Bool}
    (htrans : ∀ a b c, R a b → R b c → R a c)
    (hA : ∀ a b, le a b = true → R a b)
    (hB : ∀ a b, le a b = false → R b a) :
    ∀ (n : Nat) (l : List α), l.length ≤ n → (jsSortFuel le n l).Pairwise R := by
  intro n
  induction n with
  | zero =>
    intro l hlen
    have hl : l = [] := List.eq_nil_of_length_eq_zero (by omega)
    subst hl
    simp [jsSortFuel]
  | succ n ih =>
    intro l hlen
    rw [jsSortFuel]
    split
    case isTrue hshort =>
      rcases l with _ | ⟨x, _ | ⟨y, rest⟩⟩
      · simp
      · simp
      · simp at hshort
    case isFalse hlong =>
      refine pairwise_jsMerge htrans hA hB l.length _ _ ?_ ?_ ?_
      · exact ih _ (by rw [List.length_take]; omega)
      · exact ih _ (by rw [List.length_drop]; omega)
      · rw [length_jsSortFuel, length_jsSortFuel, List.length_take, List.length_drop]
        omega

theorem pairwise_jsSort {α : Type} {R : α → α → Prop} {le : α → α → Bool}
    (htrans : ∀ a b c, R a b → R b c → R a c)
    (hA : ∀ a b, le a b = true → R a b)
    (hB : ∀ a b, le a b = false → R b a) (l : List α) :
    (jsSort le l).Pairwise R :=
  pairwise_jsSortFuel htrans hA hB l.length l le_rfl

set_option linter.unnecessarySeqFocus false in
/-- Claim C3: for every sort field other than severity and
riskFactorsCount and either direction, every record whose field value is
null or undefined is placed after every record that carries a value in
the output of sortVulnerabilities, and flipping the direction negates the
comparator on any two records that both carry a value (while the
null-goes-last placement, stated for both directions, is unaffected). -/
theorem sortVulnerabilities_nulls_last (data : List VulnerabilityData)
    (field : SortField) (dir : SortDir)
    (hsev : field ≠ SortField.severity) (hcnt : field ≠ SortField.riskFactorsCount) :
    (sortVulnerabilities data field dir).Pairwise
        (fun a b => getField a field = none → getField b field = none) ∧
      ∀ a b : VulnerabilityData, getField a field ≠ none → getField b field ≠ none →
        cmpVuln field SortDir.desc a b = -cmpVuln field SortDir.asc a b := by
  have hcmp : ∀ (d : SortDir) (a b : VulnerabilityData),
      cmpVuln field d a b = cmpGeneric d (getField a field) (getField b field) := by
    intro d a b
    rw [cmpVuln, if_neg hcnt, if_neg hsev]
  constructor
  · simp only [sortVulnerabilities]
    refine pairwise_jsSort ?_ ?_ ?_ data
    · intro a b c hab hbc ha
      exact hbc (hab ha)
    · intro a b hle ha
      exfalso
      rw [decide_eq_true_eq, hcmp, ha] at hle
      norm_num [cmpGeneric] at hle
    · intro a b hle hb
      by_contra ha
      rw [decide_eq_false_iff_not, hcmp, hb] at hle
      obtain ⟨va, hva⟩ := Option.ne_none_iff_exists'.mp ha
      rw [hva] at hle
      norm_num [cmpGeneric] at hle
  · intro a b ha hb
    obtain ⟨va, hva⟩ := Option.ne_none_iff_exists'.mp ha
    obtain ⟨vb, hvb⟩ := Option.ne_none_iff_exists'.mp hb
    rw [hcmp, hcmp, hva, hvb]
    rcases va with s | x | ls <;> rcases vb with t | y | lt <;>
      simp [cmpGeneric] <;> (try split_ifs) <;> ring

/-- Witness for sortVulnerabilities_nulls_last: the cvss field ascending
on a two-record dataset, one record lacking a cvss value. -/
theorem sortVulnerabilities_nulls_last_witness :
    (SortField.cvss ≠ SortField.severity ∧
        SortField.cvss ≠ SortField.riskFactorsCount) ∧
      ((sortVulnerabilities
            [{ id := "a", cvss := none }, { id := "b", cvss := some 5 }]
            SortField.cvss SortDir.asc).Pairwise
          (fun a b => getField a SortField.cvss = none → getField b SortField.cvss = none) ∧
        ∀ a b : VulnerabilityData, getField a SortField.cvss ≠ none →
          getField b SortField.cvss ≠ none →
          cmpVuln SortField.cvss SortDir.desc a b =
            -cmpVuln SortField.cvss SortDir.asc a b) :=
  ⟨⟨by decide, by decide⟩,
    sortVulnerabilities_nulls_last
      [{ id := "a", cvss := none }, { id := "b", cvss := some 5 }]
      SortField.cvss SortDir.asc (by decide) (by decide)⟩

/-- Claim C4: sorting by severity orders records by the fixed rank
Critical=4 > High=3 > Medium=2 > Low=1 with unknown or missing severities
ranked 0 under a case-insensitive lookup (an ascending run has
non-decreasing ranks, a descending run non-increasing ones), and the
concrete three-record scenario sorted descending yields ids 2, 1, 3. -/
theorem sortVulnerabilities_severity_order :
    (∀ (data : List VulnerabilityData) (dir : SortDir),
        (sortVulnerabilities data SortField.severity dir).Pairwise
          (fun a b =>
            match dir with
            | SortDir.asc => severityRank a ≤ severityRank b
            | SortDir.desc => severityRank b ≤ severityRank a)) ∧
      (sortVulnerabilities
            [{ id := "1", severity := "high", cvss := some 7.5 },
             { id := "2", severity := "critical", cvss := some 9.8 },
             { id := "3", severity := "low", cvss := some 2.0 }]
            SortField.severity SortDir.desc).map (fun r => r.id) = ["2", "1", "3"] := by
  constructor
  · intro data dir
    have hcmp : ∀ a b : VulnerabilityData,
        cmpVuln SortField.severity dir a b =
          ((if dir = SortDir.asc then severityRank a - severityRank b
            else severityRank b - severityRank a : Int) : ℚ) := by
      intro a b
      rw [cmpVuln, if_neg (by decide), if_pos rfl]
    cases dir
    · simp only [sortVulnerabilities]
      refine pairwise_jsSort ?_ ?_ ?_ data
      · intro a b c hab hbc
        exact le_trans hab hbc
      · intro a b hle
        rw [decide_eq_true_eq, hcmp, if_pos rfl] at hle
        have h2 := Int.cast_nonpos.mp hle
        show severityRank a ≤ severityRank b
        omega
      · intro a b hle
        rw [decide_eq_false_iff_not, hcmp, if_pos rfl] at hle
        have h2 : ¬(severityRank a - severityRank b ≤ 0) := fun hc =>
          hle (Int.cast_nonpos.mpr hc)
        show severityRank b ≤ severityRank a
        omega
    · simp only [sortVulnerabilities]
      refine pairwise_jsSort ?_ ?_ ?_ data
      · intro a b c hab hbc
        exact le_trans hbc hab
      · intro a b hle
        rw [decide_eq_true_eq, hcmp, if_neg (by decide)] at hle
        have h2 := Int.cast_nonpos.mp hle
        show severityRank b ≤ severityRank a
        omega
      · intro a b hle
        rw [decide_eq_false_iff_not, hcmp, if_neg (by decide)] at hle
        have h2 : ¬(severityRank b - severityRank a ≤ 0) := fun hc =>
          hle (Int.cast_nonpos.mpr hc)
        show severityRank a ≤ severityRank b
        omega
  · decide

/-- Claim C9: the sorter duplicated inside the web worker is
extensionally equal to the dataUtils sorter: same output for every
record sequence, field and direction. -/
theorem worker_sort_equals_utils_sort (data : List VulnerabilityData)
    (field : SortField) (dir : SortDir) :
    SortWorker.sortVulnerabilities data field dir =
      sortVulnerabilities data field dir := rfl

/-- The filters argument of filterVulnerabilities: all four criteria are
optional. -/
structure FilterCriteria where
  searchTerm : Option String := none
  severities : Option (List String) := none
  riskFactors : Option (List String) := none
  excludeKaiStatus : Option (List String) := none
deriving DecidableEq

/-- JavaScript truthiness of an optional string: present and non-empty
(the guard if (filters.searchTerm)). -/
def strTruthy : Option String → Bool
  | some s => s != ""
  | none => false

/-- The guard filters.x && filters.x.length > 0 for an optional array. -/
def listActive : Option (List String) → Bool
  | some l => decide (0 < l.length)
  | none => false

/-- The per-record predicate of searchVulnerabilities: case-insensitive
substring match of the (already lower-cased) term against package,
severity, kaiStatus, cve and description. -/
def searchPass (term : String) (item : VulnerabilityData) : Bool :=
  jsIncludes (jsToLower item.package) term ||
    jsIncludes (jsToLower item.severity) term ||
    jsIncludes (jsToLower item.kaiStatus) term ||
    (match item.cve with
      | some c => jsIncludes (jsToLower c) term
      | none => false) ||
    (match item.description with
      | some d => jsIncludes (jsToLower d) term
      | none => false)

/-- searchVulnerabilities (src/utils/dataUtils.ts): empty term returns
the data unchanged, otherwise filter by the lower-cased term. -/
def searchVulnerabilities (data : List VulnerabilityData) (searchTerm : String) :
    List VulnerabilityData :=
  if searchTerm = "" then data
  else data.filter (searchPass (jsToLower searchTerm))

/-- The severity-membership predicate: membership of the lower-cased
record severity in the lower-cased requested set (the severitySet test). -/
def severityPass (severities : List String) (item : VulnerabilityData) : Bool :=
  (severities.map jsToLower).contains (jsToLower item.severity)

/-- The risk-factor predicate of filterVulnerabilities: the record must
have a present, non-empty riskFactors array and one of its labels must be
in the requested set (exact match). -/
def riskFactorPass (requested : List String) (item : VulnerabilityData) : Bool :=
  match item.riskFactors with
  | none => false
  | some labels =>
      if labels.length = 0 then false
      else labels.any (fun factor => requested.contains factor)

/-- The KAI status exclusion predicate: drop the record when its exact
kaiStatus is in the exclusion set. -/
def kaiStatusPass (excluded : List String) (item : VulnerabilityData) : Bool :=
  !(excluded.contains item.kaiStatus)

/-- Stage 1 of filterVulnerabilities: apply the search filter when the
searchTerm is truthy. -/
def applySearch (f : FilterCriteria) (data : List VulnerabilityData) :
    List VulnerabilityData :=
  if strTruthy f.searchTerm then searchVulnerabilities data (f.searchTerm.getD "")
  else data

/-- Stage 2 of filterVulnerabilities: severity membership when the
requested severity set is present and non-empty. -/
def applySeverities (f : FilterCriteria) (data : List VulnerabilityData) :
    List VulnerabilityData :=
  if listActive f.severities then data.filter (severityPass (f.severities.getD []))
  else data

/-- Stage 3 of filterVulnerabilities: risk-factor membership when the
requested set is present and non-empty. -/
def applyRiskFactors (f : FilterCriteria) (data : List VulnerabilityData) :
    List VulnerabilityData :=
  if listActive f.riskFactors then data.filter (riskFactorPass (f.riskFactors.getD []))
  else data

/-- Stage 4 of filterVulnerabilities: KAI status exclusion when the
exclusion set is present and non-empty. -/
def applyExcludeKaiStatus (f : FilterCriteria) (data : List VulnerabilityData) :
    List VulnerabilityData :=
  if listActive f.excludeKaiStatus then
    data.filter (kaiStatusPass (f.excludeKaiStatus.getD []))
  else data

/-- filterVulnerabilities (src/utils/dataUtils.ts): the four criteria
applied in their fixed order. -/
def filterVulnerabilities (data : List VulnerabilityData) (f : FilterCriteria) :
    List VulnerabilityData :=
  applyExcludeKaiStatus f (applyRiskFactors f (applySeverities f (applySearch f data)))

theorem applySearch_sublist (f : FilterCriteria) (l : List VulnerabilityData) :
    (applySearch f l).Sublist l := by
  rw [applySearch]
  split
  · rw [searchVulnerabilities]
    split
    · exact List.Sublist.refl l
    · exact List.filter_sublist l
  · exact List.Sublist.refl l

theorem applySeverities_sublist (f : FilterCriteria) (l : List VulnerabilityData) :
    (applySeverities f l).Sublist l := by
  rw [applySeverities]
  split
  · exact List.filter_sublist l
  · exact List.Sublist.refl l

theorem applyRiskFactors_sublist (f : FilterCriteria) (l : List VulnerabilityData) :
    (applyRiskFactors f l).Sublist l := by
  rw [applyRiskFactors]
  split
  · exact List.filter_sublist l
  · exact List.Sublist.refl l

theorem applyExcludeKaiStatus_sublist (f : FilterCriteria) (l : List VulnerabilityData) :
    (applyExcludeKaiStatus f l).Sublist l := by
  rw [applyExcludeKaiStatus]
  split
  · exact List.filter_sublist l
  · exact List.Sublist.refl l

theorem applySearch_mono (f : FilterCriteria) {l₁ l₂ : List VulnerabilityData}
    (h : l₁.Sublist l₂) : (applySearch f l₁).Sublist (applySearch f l₂) := by
  rw [applySearch, applySearch, searchVulnerabilities, searchVulnerabilities]
  split
  · split
    · exact h
    · exact List.Sublist.filter _ h
  · exact h

theorem applySeverities_mono (f : FilterCriteria) {l₁ l₂ : List VulnerabilityData}
    (h : l₁.Sublist l₂) : (applySeverities f l₁).Sublist (applySeverities f l₂) := by
  rw [applySeverities, applySeverities]
  split
  · exact List.Sublist.filter _ h
  · exact h

theorem applyRiskFactors_mono (f : FilterCriteria) {l₁ l₂ : List VulnerabilityData}
    (h : l₁.Sublist l₂) : (applyRiskFactors f l₁).Sublist (applyRiskFactors f l₂) := by
  rw [applyRiskFactors, applyRiskFactors]
  split
  · exact List.Sublist.filter _ h
  · exact h

theorem applyExcludeKaiStatus_mono (f : FilterCriteria) {l₁ l₂ : List VulnerabilityData}
    (h : l₁.Sublist l₂) :
    (applyExcludeKaiStatus f l₁).Sublist (applyExcludeKaiStatus f l₂) := by
  rw [applyExcludeKaiStatus, applyExcludeKaiStatus]
  split
  · exact List.Sublist.filter _ h
  · exact h

theorem filterVulnerabilities_sublist (data : List VulnerabilityData)
    (f : FilterCriteria) : (filterVulnerabilities data f).Sublist data := by
  refine ((applyExcludeKaiStatus_sublist f _).trans
    ((applyRiskFactors_sublist f _).trans
      ((applySeverities_sublist f _).trans (applySearch_sublist f data))))

theorem applySearch_congr (f f' : FilterCriteria) (h : f'.searchTerm = f.searchTerm) :
    applySearch f' = applySearch f := by
  funext l
  rw [applySearch, applySearch, h]

theorem applySeverities_congr (f f' : FilterCriteria) (h : f'.severities = f.severities) :
    applySeverities f' = applySeverities f := by
  funext l
  rw [applySeverities, applySeverities, h]

theorem applyRiskFactors_congr (f f' : FilterCriteria) (h : f'.riskFactors = f.riskFactors) :
    applyRiskFactors f' = applyRiskFactors f := by
  funext l
  rw [applyRiskFactors, applyRiskFactors, h]

theorem applyExcludeKaiStatus_congr (f f' : FilterCriteria)
    (h : f'.excludeKaiStatus = f.excludeKaiStatus) :
    applyExcludeKaiStatus f' = applyExcludeKaiStatus f := by
  funext l
  rw [applyExcludeKaiStatus, applyExcludeKaiStatus, h]

theorem applySearch_inactive (f : FilterCriteria) (h : strTruthy f.searchTerm = false)
    (l : List VulnerabilityData) : applySearch f l = l := by
  simp [applySearch, h]

theorem applySeverities_inactive (f : FilterCriteria) (h : listActive f.severities = false)
    (l : List VulnerabilityData) : applySeverities f l = l := by
  simp [applySeverities, h]

theorem applyRiskFactors_inactive (f : FilterCriteria) (h : listActive f.riskFactors = false)
    (l : List VulnerabilityData) : applyRiskFactors f l = l := by
  simp [applyRiskFactors, h]

theorem applyExcludeKaiStatus_inactive (f : FilterCriteria)
    (h : listActive f.excludeKaiStatus = false) (l : List VulnerabilityData) :
    applyExcludeKaiStatus f l = l := by
  simp [applyExcludeKaiStatus, h]

/-- One additional non-empty criterion: f' agrees with f except that one
criterion slot that is inactive in f carries an active (non-empty) value
in f'. -/
def AddsOneCriterion (f f' : FilterCriteria) : Prop :=
  (strTruthy f.searchTerm = false ∧
      ∃ t, t ≠ "" ∧ f' = { f with searchTerm := some t }) ∨
    (listActive f.severities = false ∧
      ∃ l, l ≠ [] ∧ f' = { f with severities := some l }) ∨
    (listActive f.riskFactors = false ∧
      ∃ l, l ≠ [] ∧ f' = { f with riskFactors := some l }) ∨
    (listActive f.excludeKaiStatus = false ∧
      ∃ l, l ≠ [] ∧ f' = { f with excludeKaiStatus := some l })

/-- Claim C5: for every record sequence and criteria object the filtered
result is no longer than the input, and adding one further non-empty
criterion never increases the result length. -/
theorem filterVulnerabilities_monotone (data : List VulnerabilityData)
    (f : FilterCriteria) :
    (filterVulnerabilities data f).length ≤ data.length ∧
      ∀ f' : FilterCriteria, AddsOneCriterion f f' →
        (filterVulnerabilities data f').length ≤ (filterVulnerabilities data f).length := by
  refine ⟨(filterVulnerabilities_sublist data f).length_le, ?_⟩
  intro f' hadd
  rcases hadd with ⟨h0, t, ht, rfl⟩ | ⟨h0, l, hl, rfl⟩ | ⟨h0, l, hl, rfl⟩ | ⟨h0, l, hl, rfl⟩
  · rw [filterVulnerabilities, filterVulnerabilities,
      applySeverities_congr f { f with searchTerm := some t } rfl,
      applyRiskFactors_congr f { f with searchTerm := some t } rfl,
      applyExcludeKaiStatus_congr f { f with searchTerm := some t } rfl,
      applySearch_inactive f h0]
    exact (applyExcludeKaiStatus_mono f (applyRiskFactors_mono f
      (applySeverities_mono f (applySearch_sublist _ data)))).length_le
  · rw [filterVulnerabilities, filterVulnerabilities,
      applySearch_congr f { f with severities := some l } rfl,
      applyRiskFactors_congr f { f with severities := some l } rfl,
      applyExcludeKaiStatus_congr f { f with severities := some l } rfl,
      applySeverities_inactive f h0]
    exact (applyExcludeKaiStatus_mono f (applyRiskFactors_mono f
      (applySeverities_sublist _ _))).length_le
  · rw [filterVulnerabilities, filterVulnerabilities,
      applySearch_congr f { f with riskFactors := some l } rfl,
      applySeverities_congr f { f with riskFactors := some l } rfl,
      applyExcludeKaiStatus_congr f { f with riskFactors := some l } rfl,
      applyRiskFactors_inactive f h0]
    exact (applyExcludeKaiStatus_mono f (applyRiskFactors_sublist _ _)).length_le
  · rw [filterVulnerabilities, filterVulnerabilities,
      applySearch_congr f { f with excludeKaiStatus := some l } rfl,
      applySeverities_congr f { f with excludeKaiStatus := some l } rfl,
      applyRiskFactors_congr f { f with excludeKaiStatus := some l } rfl,
      applyExcludeKaiStatus_inactive f h0]
    exact (applyExcludeKaiStatus_sublist _ _).length_le

/-- Witness for filterVulnerabilities_monotone: a one-record dataset with
the empty criteria object, extended by a severity criterion. -/
theorem filterVulnerabilities_monotone_witness :
    ((filterVulnerabilities [{ id := "w", severity := "High" }] {}).length ≤
        ([{ id := "w", severity := "High" }] : List VulnerabilityData).length ∧
      ∀ f' : FilterCriteria, AddsOneCriterion {} f' →
        (filterVulnerabilities [{ id := "w", severity := "High" }] f').length ≤
          (filterVulnerabilities [{ id := "w", severity := "High" }] {}).length) ∧
      (filterVulnerabilities [{ id := "w", severity := "High" }]
          { severities := some ["Critical"] }).length ≤
        (filterVulnerabilities [{ id := "w", severity := "High" }] {}).length :=
  ⟨filterVulnerabilities_monotone [{ id := "w", severity := "High" }] {},
    (filterVulnerabilities_monotone [{ id := "w", severity := "High" }] {}).2
      { severities := some ["Critical"] }
      (Or.inr (Or.inl ⟨rfl, ["Critical"], by decide, rfl⟩))⟩

/-- Claim C6 as stated fails on the code: with the non-empty requested
set consisting of the empty-string label, the record whose only
risk-factor label is the empty string passes the filter, although it has
no non-empty risk-factor label, so pass is not equivalent to having a
non-empty label plus a label in the requested set. -/
theorem riskFactor_filter_claim_counterexample :
    ¬(riskFactorPass [""] { id := "r", riskFactors := some [""] } = true ↔
        (∃ lab ∈ ({ id := "r", riskFactors := some [""] } :
            VulnerabilityData).riskFactors.getD [], lab ≠ "") ∧
          ∃ lab ∈ ({ id := "r", riskFactors := some [""] } :
            VulnerabilityData).riskFactors.getD [], lab ∈ ([""] : List String)) := by
  decide

/-- Claim C6 amended: while the requested risk-factor set is present and
non-empty, the stage filters by riskFactorPass, and a record passes if
and only if its riskFactors list is present and non-empty (the labels
themselves may be empty strings) with at least one label in the
requested set under exact match; a record with absent or empty
riskFactors never passes, and an inactive criterion (absent or empty
requested set) leaves every record sequence unchanged. -/
theorem riskFactor_filter_pass_iff (f : FilterCriteria) (requested : List String)
    (item : VulnerabilityData) (data : List VulnerabilityData)
    (hreq : f.riskFactors = some requested) (hne : requested ≠ []) :
    applyRiskFactors f data = data.filter (riskFactorPass requested) ∧
      (riskFactorPass requested item = true ↔
        ∃ labels, item.riskFactors = some labels ∧ labels ≠ [] ∧
          ∃ lab ∈ labels, lab ∈ requested) ∧
      ∀ (g : FilterCriteria) (l : List VulnerabilityData),
        listActive g.riskFactors = false → applyRiskFactors g l = l := by
  refine ⟨?_, ?_, ?_⟩
  · simp [applyRiskFactors, hreq, listActive, List.length_pos, hne]
  · rcases hrf : item.riskFactors with _ | labels
    · simp [riskFactorPass, hrf]
    · by_cases hlen : labels.length = 0
      · have hnil : labels = [] := List.eq_nil_of_length_eq_zero hlen
        subst hnil
        simp [riskFactorPass, hrf]
      · have hne2 : labels ≠ [] := by
          intro hc
          exact hlen (by simp [hc])
        simp [riskFactorPass, hrf, hlen, hne2, List.any_eq_true,
          List.contains_eq_any_beq]
  · intro g l h
    simp [applyRiskFactors, h]

/-- Witness for riskFactor_filter_pass_iff at the requested set with the
single label Has fix and a record carrying exactly that label. -/
theorem riskFactor_filter_pass_iff_witness :
    (({ riskFactors := some ["Has fix"] } : FilterCriteria).riskFactors =
          some ["Has fix"] ∧
        (["Has fix"] : List String) ≠ []) ∧
      (applyRiskFactors { riskFactors := some ["Has fix"] }
            [{ id := "w", riskFactors := some ["Has fix"] }] =
          [{ id := "w", riskFactors := some ["Has fix"] }].filter
            (riskFactorPass ["Has fix"]) ∧
        (riskFactorPass ["Has fix"] { id := "w", riskFactors := some ["Has fix"] } = true ↔
          ∃ labels, ({ id := "w", riskFactors := some ["Has fix"] } :
              VulnerabilityData).riskFactors = some labels ∧ labels ≠ [] ∧
            ∃ lab ∈ labels, lab ∈ (["Has fix"] : List String)) ∧
        ∀ (g : FilterCriteria) (l : List VulnerabilityData),
          listActive g.riskFactors = false → applyRiskFactors g l = l) :=
  ⟨⟨rfl, by decide⟩,
    riskFactor_filter_pass_iff { riskFactors := some ["Has fix"] } ["Has fix"]
      { id := "w", riskFactors := some ["Has fix"] }
      [{ id := "w", riskFactors := some ["Has fix"] }] rfl (by decide)⟩

/-- A store of JavaScript arrays: an array reference is an index into
the store and the entry at that index is the current array contents.
Used to state that filter and sort never mutate their argument array. -/
abbrev Store := List (List VulnerabilityData)

/-- Heap-level sortVulnerabilities: the spread [...data] allocates a
fresh copy of the argument contents at a new reference, and
Array.prototype.sort then mutates that copy in place; the reference given
as argument is never written. -/
def sortVulnerabilitiesHeap (store : Store) (r : Nat) (field : SortField)
    (dir : SortDir) : Store × Nat :=
  let data := store.getD r []
  let c := store.length
  let store1 := store ++ [data]
  let store2 := store1.set c (jsSort (fun a b => decide (cmpVuln field dir a b ≤ 0)) data)
  (store2, c)

/-- One heap-level stage of filterVulnerabilities: an active criterion
calls Array.prototype.filter, which allocates a new array and leaves its
receiver untouched; an inactive criterion passes the reference along. -/
def filterStageHeap (store : Store) (r : Nat) (active : Bool)
    (pass : VulnerabilityData → Bool) : Store × Nat :=
  if active then (store ++ [(store.getD r []).filter pass], store.length)
  else (store, r)

/-- Heap-level filterVulnerabilities: the four criterion stages applied
in their fixed order, threading the store. -/
def filterVulnerabilitiesHeap (store : Store) (r : Nat) (f : FilterCriteria) :
    Store × Nat :=
  let p1 := filterStageHeap store r (strTruthy f.searchTerm)
    (searchPass (jsToLower (f.searchTerm.getD "")))
  let p2 := filterStageHeap p1.1 p1.2 (listActive f.severities)
    (severityPass (f.severities.getD []))
  let p3 := filterStageHeap p2.1 p2.2 (listActive f.riskFactors)
    (riskFactorPass (f.riskFactors.getD []))
  filterStageHeap p3.1 p3.2 (listActive f.excludeKaiStatus)
    (kaiStatusPass (f.excludeKaiStatus.getD []))

theorem filterStageHeap_prefix (store : Store) (r : Nat) (active : Bool)
    (pass : VulnerabilityData → Bool) :
    store.IsPrefix (filterStageHeap store r active pass).1 := by
  rw [filterStageHeap]
  split
  · exact List.prefix_append store _
  · exact List.prefix_refl store

theorem getD_of_prefix {store store' : Store} (h : store.IsPrefix store') (r : Nat)
    (hr : r < store.length) : store'.getD r [] = store.getD r [] := by
  obtain ⟨t, rfl⟩ := h
  rw [List.getD_eq_getElem?_getD, List.getD_eq_getElem?_getD,
    List.getElem?_append_left hr]

/-- Claim C7: neither sortVulnerabilities nor filterVulnerabilities
mutates its argument array: for any store and any valid reference, the
contents at that reference are unchanged (same length, same elements,
same order) after either heap-level call. -/
theorem filter_sort_no_mutation (store : Store) (r : Nat) (field : SortField)
    (dir : SortDir) (f : FilterCriteria) (h : r < store.length) :
    (sortVulnerabilitiesHeap store r field dir).1.getD r [] = store.getD r [] ∧
      (filterVulnerabilitiesHeap store r f).1.getD r [] = store.getD r [] := by
  constructor
  · simp only [sortVulnerabilitiesHeap]
    rw [List.getD_eq_getElem?_getD, List.getD_eq_getElem?_getD,
      List.getElem?_set_ne (by omega), List.getElem?_append_left h]
  · have h1 := filterStageHeap_prefix store r (strTruthy f.searchTerm)
      (searchPass (jsToLower (f.searchTerm.getD "")))
    set p1 := filterStageHeap store r (strTruthy f.searchTerm)
      (searchPass (jsToLower (f.searchTerm.getD ""))) with hp1
    have h2 := filterStageHeap_prefix p1.1 p1.2 (listActive f.severities)
      (severityPass (f.severities.getD []))
    set p2 := filterStageHeap p1.1 p1.2 (listActive f.severities)
      (severityPass (f.severities.getD [])) with hp2
    have h3 := filterStageHeap_prefix p2.1 p2.2 (listActive f.riskFactors)
      (riskFactorPass (f.riskFactors.getD []))
    set p3 := filterStageHeap p2.1 p2.2 (listActive f.riskFactors)
      (riskFactorPass (f.riskFactors.getD [])) with hp3
    have h4 := filterStageHeap_prefix p3.1 p3.2 (listActive f.excludeKaiStatus)
      (kaiStatusPass (f.excludeKaiStatus.getD []))
    have hpre : store.IsPrefix (filterVulnerabilitiesHeap store r f).1 := by
      rw [filterVulnerabilitiesHeap]
      exact h1.trans (h2.trans (h3.trans h4))
    exact getD_of_prefix hpre r h

/-- Witness for filter_sort_no_mutation: a one-array store holding one
record, sorted by cvss ascending and filtered by a search term. -/
theorem filter_sort_no_mutation_witness :
    (0 < ([[{ id := "w", package := "lodash" }]] : Store).length) ∧
      (sortVulnerabilitiesHeap [[{ id := "w", package := "lodash" }]] 0
            SortField.cvss SortDir.asc).1.getD 0 [] =
          ([[{ id := "w", package := "lodash" }]] : Store).getD 0 [] ∧
        (filterVulnerabilitiesHeap [[{ id := "w", package := "lodash" }]] 0
            { searchTerm := some "lo" }).1.getD 0 [] =
          ([[{ id := "w", package := "lodash" }]] : Store).getD 0 [] :=
  ⟨by decide,
    filter_sort_no_mutation [[{ id := "w", package := "lodash" }]] 0
      SortField.cvss SortDir.asc { searchTerm := some "lo" } (by decide)⟩

/-- A raw record candidate as parsed from JSON, before the per-record
normalization map at the end of loadVulnerabilityData
(src/utils/dataLoader.ts): every field may be absent. -/
structure RawItem where
  id : Option String := none
  severity : Option String := none
  package : Option String := none
  kaiStatus : Option String := none
  cvss : Option ℚ := none
  cve : Option String := none
  description : Option String := none
  version : Option String := none
  riskFactors : Option (List String) := none
  timestamp : Option String := none
deriving DecidableEq

/-- The Title-case canonicalization severity.charAt(0).toUpperCase() +
severity.slice(1).toLowerCase(). -/
def titleCase (s : String) : String :=
  match s.data with
  | [] => ""
  | c :: rest => String.mk (Char.toUpper c :: rest.map Char.toLower)

/-- The per-record normalization of loadVulnerabilityData: the id falls
back to vuln-<index> when absent or empty (JavaScript truthiness of
item.id), a truthy severity is canonicalized to Title case, a falsy one
is kept as is, and every other field passes through unchanged. -/
def normalizeItem (index : Nat) (item : RawItem) : RawItem :=
  { item with
    id := some (match item.id with
      | some i => if i = "" then "vuln-" ++ toString index else i
      | none => "vuln-" ++ toString index)
    severity := match item.severity with
      | some s => if s = "" then some s else some (titleCase s)
      | none => none }

/-- The indexed map data.map((item, index) => ...) of
loadVulnerabilityData. -/
def normalizeFrom (index : Nat) : List RawItem → List RawItem
  | [] => []
  | item :: rest => normalizeItem index item :: normalizeFrom (index + 1) rest

/-- The flat-array path of loadVulnerabilityData: when the resolved data
is already a flat array, the function returns exactly this indexed map
over it. -/
def loadVulnerabilityData (data : List RawItem) : List RawItem :=
  normalizeFrom 0 data

theorem normalizeItem_fixed (index : Nat) (item : RawItem)
    (hid : ∃ i, item.id = some i ∧ i ≠ "")
    (hsev : ∃ s, item.severity = some s ∧ titleCase s = s) :
    normalizeItem index item = item := by
  obtain ⟨i, hi, hine⟩ := hid
  obtain ⟨s, hs, hts⟩ := hsev
  rcases item with ⟨oid, osev, opkg, okai, ocvss, ocve, odesc, over, orf, ots⟩
  simp only [RawItem.mk.injEq] at hi hs ⊢
  subst hi hs
  rw [normalizeItem]
  by_cases hse : s = ""
  · simp [normalizeItem, hine, hse]
  · simp [normalizeItem, hine, hse, hts]

theorem normalizeFrom_fixed :
    ∀ (data : List RawItem),
      (∀ item ∈ data, (∃ i, item.id = some i ∧ i ≠ "") ∧
        ∃ s, item.severity = some s ∧ titleCase s = s) →
      ∀ index : Nat, normalizeFrom index data = data := by
  intro data
  induction data with
  | nil => intro _ _; rfl
  | cons item rest ih =>
    intro h index
    rw [normalizeFrom,
      normalizeItem_fixed index item (h item (List.mem_cons_self item rest)).1
        (h item (List.mem_cons_self item rest)).2,
      ih (fun it hit => h it (List.mem_cons_of_mem item hit)) (index + 1)]

/-- Claim C8: re-normalizing an already-flat array of valid records, each
carrying a non-empty id and a severity that is a fixed point of the
Title-case canonicalization, returns the same records unchanged: no id
is reassigned and no severity is rewritten, so normalization is the
identity on such arrays. -/
theorem normalize_idempotent_on_flat (data : List RawItem)
    (h : ∀ item ∈ data, (∃ i, item.id = some i ∧ i ≠ "") ∧
      ∃ s, item.severity = some s ∧ titleCase s = s) :
    loadVulnerabilityData data = data := by
  rw [loadVulnerabilityData, normalizeFrom_fixed data h 0]

/-- Witness for normalize_idempotent_on_flat: a one-record flat array
whose record already carries the id vuln-0 and the Title-case severity
High. -/
theorem normalize_idempotent_on_flat_witness :
    (∀ item ∈ ([{ id := some "vuln-0", severity := some "High" }] : List RawItem),
        (∃ i, item.id = some i ∧ i ≠ "") ∧
          ∃ s, item.severity = some s ∧ titleCase s = s) ∧
      loadVulnerabilityData [{ id := some "vuln-0", severity := some "High" }] =
        [{ id := some "vuln-0", severity := some "High" }] :=
  ⟨by decide,
    normalize_idempotent_on_flat [{ id := some "vuln-0", severity := some "High" }]
      (by decide)⟩

/-- handleAddToComparison (src/components/Dashboard/MainDashboard.tsx):
append the item unless a record with its id is already in the list. -/
def handleAddToComparison (comparisonList : List VulnerabilityData)
    (item : VulnerabilityData) : List VulnerabilityData :=
  if (comparisonList.find? (fun v => v.id == item.id)).isSome then comparisonList
  else comparisonList ++ [item]

/-- handleRemoveFromComparison: keep the records whose id differs. -/
def handleRemoveFromComparison (comparisonList : List VulnerabilityData)
    (id : String) : List VulnerabilityData :=
  comparisonList.filter (fun v => v.id != id)

/-- handleClearComparison: reset to the empty list. -/
def handleClearComparison (_comparisonList : List VulnerabilityData) :
    List VulnerabilityData :=
  []

/-- The user-visible operations on the comparison list. -/
inductive ComparisonOp where
  | add (item : VulnerabilityData)
  | remove (id : String)
  | clear

/-- Apply one comparison-list operation. -/
def applyComparisonOp (l : List VulnerabilityData) : ComparisonOp → List VulnerabilityData
  | .add item => handleAddToComparison l item
  | .remove id => handleRemoveFromComparison l id
  | .clear => handleClearComparison l

/-- Run a sequence of operations from the initial state useState([]). -/
def runComparisonOps (ops : List ComparisonOp) : List VulnerabilityData :=
  ops.foldl applyComparisonOp []

theorem applyComparisonOp_nodup {l : List VulnerabilityData}
    (hl : (l.map (fun v => v.id)).Nodup) (op : ComparisonOp) :
    ((applyComparisonOp l op).map (fun v => v.id)).Nodup := by
  cases op with
  | add item =>
    rw [applyComparisonOp, handleAddToComparison]
    split
    · exact hl
    case isFalse hfind =>
      have hnone : l.find? (fun v => v.id == item.id) = none :=
        Option.not_isSome_iff_eq_none.mp (by simpa using hfind)
      have hnotmem : item.id ∉ l.map (fun v => v.id) := by
        intro hmem
        obtain ⟨v, hv, hvid⟩ := List.mem_map.mp hmem
        have hne := List.find?_eq_none.mp hnone v hv
        simp [hvid] at hne
      rw [List.map_append]
      simp [List.nodup_append, hl, List.disjoint_singleton, hnotmem]
  | remove id =>
    rw [applyComparisonOp, handleRemoveFromComparison]
    exact ((List.filter_sublist l).map (fun v => v.id)).nodup hl
  | clear =>
    simp [applyComparisonOp, handleClearComparison]

/-- Claim C10: after any sequence of add, remove and clear operations
starting from the empty comparison list, the ids in the list are
pairwise distinct (adding an id already present is a no-op, removal and
clear preserve distinctness). -/
theorem comparisonList_ids_nodup (ops : List ComparisonOp) :
    ((runComparisonOps ops).map (fun v => v.id)).Nodup := by
  rw [runComparisonOps]
  have hgen : ∀ (l : List VulnerabilityData), (l.map (fun v => v.id)).Nodup →
      ((ops.foldl applyComparisonOp l).map (fun v => v.id)).Nodup := by
    induction ops with
    | nil => intro l hl; exact hl
    | cons op rest ih =>
      intro l hl
      rw [List.foldl_cons]
      exact ih (applyComparisonOp l op) (applyComparisonOp_nodup hl op)
  exact hgen [] (by simp)
